import Mathlib

/-!
Shallow embedding of the Book & Note State Manager of `src/bot.py`
(BookReviewGeneratorBot).  The MongoDB collections `users` and `books` are
modelled as lists kept in insertion order; `ObjectId`s are modelled as the
natural number `nextId` of the store; `datetime.utcnow()` is a `Nat`
parameter `now` supplied to each handler; the OpenAI calls are a parameter
`llm : String → Option String` (`none` models a raised exception).
Each `*_command` / `handle_*` definition mirrors the database effect and
the observable result of the corresponding method of `BookNotesBot`.
-/

namespace BookBot

/-- Mirrors the note documents built in `handle_text_note` /
`handle_voice_note`: `content`, `type`, `timestamp`, `message_id`, and for
voice notes `duration`. -/
structure Note where
  content : String
  kind : String
  timestamp : Nat
  message_id : Nat
  duration : Option Nat
deriving Repr, DecidableEq

/-- Mirrors the book documents of the `books` collection: the document
created in `new_book_command` plus the fields set later by
`generate_review_command` (absent fields are `none`). -/
structure Book where
  id : Nat
  user_id : Nat
  title : String
  notes : List Note
  status : String
  created_at : Nat
  finished_at : Option Nat
  ai_review : Option String
  review_generated_at : Option Nat
deriving Repr, DecidableEq

/-- Mirrors the user documents of the `users` collection, as created by the
upsert in `start_command`. -/
structure User where
  user_id : Nat
  username : String
  last_active : Nat
  created_at : Nat
  current_book_id : Option Nat
deriving Repr, DecidableEq

/-- The persistent store: both collections in insertion order plus the
id counter standing in for ObjectId generation. -/
structure DB where
  users : List User
  books : List Book
  nextId : Nat
deriving Repr, DecidableEq

/-- Semantics of Mongo `update_one`: modify the first document matching the
filter, leave everything else alone. -/
def updateFirst (p : α → Bool) (f : α → α) : List α → List α
  | [] => []
  | x :: xs => if p x then f x :: xs else x :: updateFirst p f xs

/-- Semantics of `users_collection.find_one({"user_id": user_id})`. -/
def findUser (db : DB) (uid : Nat) : Option User :=
  db.users.find? (fun u => u.user_id == uid)

/-- Semantics of `books_collection.find_one({"_id": book_id})`. -/
def findBook (db : DB) (bid : Nat) : Option Book :=
  db.books.find? (fun b => b.id == bid)

/-- Embeds `BookNotesBot.get_current_book`: resolve the user, then the
book referenced by `current_book_id`; `None` if either is missing. -/
def get_current_book (db : DB) (uid : Nat) : Option Book :=
  match findUser db uid with
  | none => none
  | some user =>
    match user.current_book_id with
    | none => none
    | some bid => findBook db bid

/-- Embeds the database effect of `start_command`: an upsert that `$set`s
`username` and `last_active` and `$setOnInsert`s `created_at` and
`current_book_id: None`. -/
def start_command (db : DB) (uid : Nat) (username : String) (now : Nat) : DB :=
  match findUser db uid with
  | some _ =>
    let f := fun u => { u with username := username, last_active := now }
    { db with users := updateFirst (fun u => u.user_id == uid) f db.users }
  | none =>
    let newUser : User := { user_id := uid, username := username,
                            last_active := now, created_at := now,
                            current_book_id := none }
    { db with users := db.users ++ [newUser] }

/-- The book document inserted by `new_book_command` for a given id, owner,
title and creation time. -/
def mkBook (bid uid : Nat) (title : String) (now : Nat) : Book :=
  { id := bid, user_id := uid, title := title, notes := [],
    status := "reading", created_at := now, finished_at := none,
    ai_review := none, review_generated_at := none }

/-- Embeds `new_book_command`: with no arguments it only replies; otherwise
it inserts a fresh book (status `"reading"`, empty notes) and `$set`s the
user's `current_book_id` to the new id.  Returns the new id on success. -/
def new_book_command (db : DB) (uid : Nat) (args : List String) (now : Nat) :
    DB × Option Nat :=
  if args.isEmpty then (db, none)
  else
    let title := String.intercalate " " args
    let book := mkBook db.nextId uid title now
    let db1 : DB := { db with books := db.books ++ [book], nextId := db.nextId + 1 }
    let f := fun u => { u with current_book_id := some book.id }
    let db2 : DB := { db1 with users := updateFirst (fun u => u.user_id == uid) f db1.users }
    (db2, some book.id)

/-- Embeds `handle_text_note`: if no current book resolves, reply only;
otherwise `$push` a text note onto the current book.  The Bool reports
whether a note was saved. -/
def handle_text_note (db : DB) (uid : Nat) (text_content : String)
    (message_id now : Nat) : DB × Bool :=
  match get_current_book db uid with
  | none => (db, false)
  | some current_book =>
    let note : Note := { content := text_content, kind := "text", timestamp := now,
                         message_id := message_id, duration := none }
    let f := fun b => { b with notes := b.notes ++ [note] }
    ({ db with books := updateFirst (fun b => b.id == current_book.id) f db.books }, true)

/-- Embeds `handle_voice_note`: the Whisper transcription is the parameter
`transcript` (`none` models the exception path, which writes nothing);
on success a voice note with `duration` is `$push`ed onto the current
book. -/
def handle_voice_note (db : DB) (uid : Nat) (transcript : Option String)
    (message_id duration now : Nat) : DB × Bool :=
  match get_current_book db uid with
  | none => (db, false)
  | some current_book =>
    match transcript with
    | none => (db, false)
    | some transcribed_text =>
      let note : Note := { content := transcribed_text, kind := "voice", timestamp := now,
                           message_id := message_id, duration := some duration }
      let f := fun b => { b with notes := b.notes ++ [note] }
      ({ db with books := updateFirst (fun b => b.id == current_book.id) f db.books }, true)

/-- Embeds the `switch_` branch of `handle_callback_query`: it first
`$set`s the user's `current_book_id` to the requested id, then looks the
book up by `_id` alone; the returned Option is what `find_one` yields
(the handler dereferences it unconditionally afterwards). -/
def handle_callback_query (db : DB) (uid : Nat) (book_id : Nat) :
    DB × Option Book :=
  let f := fun u => { u with current_book_id := some book_id }
  let db1 : DB := { db with users := updateFirst (fun u => u.user_id == uid) f db.users }
  (db1, findBook db1 book_id)

/-- Embeds the `notes_text` built in `generate_review_command`:
`"\n\n".join(f"Note {i+1}: {note['content']}" for i, note in enumerate(notes))`. -/
def notes_text (notes : List Note) : String :=
  String.intercalate "\n\n"
    (notes.enum.map (fun p => "Note " ++ toString (p.1 + 1) ++ ": " ++ p.2.content))

/-- Embeds the prompt f-string of `generate_ai_review`, with the title and
the joined notes text substituted in. -/
def ai_prompt (book_title : String) (nt : String) : String :=
  "\nBased on the following personal reading notes for the book \"" ++ book_title ++
  "\", write a thoughtful and comprehensive book review. \n\nReading Notes:\n" ++ nt ++
  "\n\nPlease write a review that covers:\n" ++
  "1. Overall impression and rating\n" ++
  "2. Key themes and main ideas\n" ++
  "3. Strengths and notable aspects\n" ++
  "4. Any criticisms or weaknesses mentioned\n" ++
  "5. Personal takeaways and recommendations\n\n" ++
  "Write in a personal, engaging tone as if the reader took these notes themselves. " ++
  "Keep it concise but insightful (200-400 words).\n        "

/-- Embeds `generate_ai_review`: build the prompt, call the model, strip
the result; `none` models a raised exception from the API call. -/
def generate_ai_review (llm : String → Option String) (book_title : String)
    (nt : String) : Option String :=
  (llm (ai_prompt book_title nt)).map String.trim

/-- Observable outcome of `generate_review_command`. -/
inductive ReviewResult where
  | noCurrent
  | noNotes
  | failed
  | success (review : String)
deriving Repr, DecidableEq

/-- Embeds `generate_review_command`: no current book or empty notes only
reply; otherwise generate, and only on success `$set` `ai_review` and
`review_generated_at` on the book (the exception handler writes
nothing). -/
def generate_review_command (db : DB) (uid : Nat) (llm : String → Option String)
    (now : Nat) : DB × ReviewResult :=
  match get_current_book db uid with
  | none => (db, ReviewResult.noCurrent)
  | some current_book =>
    if current_book.notes.isEmpty then (db, ReviewResult.noNotes)
    else
      match generate_ai_review llm current_book.title (notes_text current_book.notes) with
      | none => (db, ReviewResult.failed)
      | some review =>
        let f := fun b => { b with ai_review := some review, review_generated_at := some now }
        ({ db with books := updateFirst (fun b => b.id == current_book.id) f db.books },
         ReviewResult.success review)

/-- Embeds `finish_book_command`: no current book only replies; otherwise
`$set` `status="finished"` and `finished_at=now` on the current book, then
`$set` the user's `current_book_id` to `None`. -/
def finish_book_command (db : DB) (uid : Nat) (now : Nat) : DB × Bool :=
  match get_current_book db uid with
  | none => (db, false)
  | some current_book =>
    let f := fun b => { b with status := "finished", finished_at := some now }
    let db1 : DB := { db with books := updateFirst (fun b => b.id == current_book.id) f db.books }
    let g := fun u => { u with current_book_id := none }
    let db2 : DB := { db1 with users := updateFirst (fun u => u.user_id == uid) g db1.users }
    (db2, true)

/-- The aggregates computed by `stats_command`. -/
structure Stats where
  total_books : Nat
  finished_books : Nat
  reading_books : Nat
  total_notes : Nat
  most_noted_book : Book
deriving Repr, DecidableEq

/-- Python `max(books, key=lambda b: len(b["notes"]))`: keep the current
maximum, replacing it only on a strictly larger key, so the first maximal
element encountered wins. -/
def mostNoted (x : Book) (rest : List Book) : Book :=
  rest.foldl (fun acc b => if acc.notes.length < b.notes.length then b else acc) x

/-- Embeds `stats_command`: an unsorted scan of the user's books (insertion
order); `none` models the zero-books reply. -/
def stats_command (db : DB) (uid : Nat) : Option Stats :=
  match db.books.filter (fun b => b.user_id == uid) with
  | [] => none
  | x :: rest =>
    some { total_books := (x :: rest).length,
           finished_books := ((x :: rest).filter (fun b => b.status == "finished")).length,
           reading_books := (x :: rest).length -
             ((x :: rest).filter (fun b => b.status == "finished")).length,
           total_notes := ((x :: rest).map (fun b => b.notes.length)).sum,
           most_noted_book := mostNoted x rest }

/-- One inbound event resolved to its state effect: the constructors cover
every handler of `BookNotesBot` that writes to the store (the read-only
commands are omitted as no-ops). -/
inductive Op where
  | start (username : String)
  | newBook (args : List String)
  | textNote (content : String) (message_id : Nat)
  | voiceNote (transcript : Option String) (message_id duration : Nat)
  | switch (book_id : Nat)
  | review (llm : String → Option String)
  | finish

/-- State effect of one event for user `uid` at time `now`. -/
def step (db : DB) (uid : Nat) (now : Nat) : Op → DB
  | Op.start username => start_command db uid username now
  | Op.newBook args => (new_book_command db uid args now).1
  | Op.textNote content mid => (handle_text_note db uid content mid now).1
  | Op.voiceNote t mid dur => (handle_voice_note db uid t mid dur now).1
  | Op.switch bid => (handle_callback_query db uid bid).1
  | Op.review llm => (generate_review_command db uid llm now).1
  | Op.finish => (finish_book_command db uid now).1

/-- Run a sequence of events, each tagged with its user and time. -/
def run (db : DB) : List (Nat × Nat × Op) → DB :=
  List.foldl (fun d e => step d e.1 e.2.1 e.2.2) db

/-- The books inserted by a sequence of successful `new_book_command`
calls starting at id `nid`: one per call, consecutive ids. -/
def mkBooks (nid uid : Nat) : List (List String × Nat) → List Book
  | [] => []
  | (args, now) :: rest =>
    mkBook nid uid (String.intercalate " " args) now :: mkBooks (nid + 1) uid rest

/-- Fold a sequence of `new_book_command` calls (argument list and time per
call) for one user. -/
def run_new_books (db : DB) (uid : Nat) : List (List String × Nat) → DB
  | [] => db
  | (args, now) :: rest => run_new_books (new_book_command db uid args now).1 uid rest

/-! Helper lemmas about the store primitives. -/

theorem find?_updateFirst_same (p : α → Bool) (f : α → α)
    (hp : ∀ x, p x = true → p (f x) = true) (l : List α) :
    (updateFirst p f l).find? p = (l.find? p).map f := by
  induction l with
  | nil => rfl
  | cons x xs ih =>
    cases hx : p x with
    | true => simp [updateFirst, hx, List.find?_cons, hp x hx]
    | false => simp [updateFirst, hx, List.find?_cons, ih]

theorem find?_updateFirst_other (p q : α → Bool) (f : α → α)
    (h1 : ∀ x, p x = true → q x = false) (h2 : ∀ x, q x = true → p (f x) = false)
    (l : List α) : (updateFirst q f l).find? p = l.find? p := by
  induction l with
  | nil => rfl
  | cons x xs ih =>
    cases hx : q x with
    | true =>
      have hpx : p x = false := by
        cases hpx : p x with
        | true => exact absurd (h1 x hpx) (by simp [hx])
        | false => rfl
      simp [updateFirst, hx, List.find?_cons, h2 x hx, hpx]
    | false => simp [updateFirst, hx, List.find?_cons, ih]

theorem updateFirst_eq_self (p : α → Bool) (f : α → α) (l : List α)
    (h : ∀ x ∈ l, p x = true → f x = x) : updateFirst p f l = l := by
  induction l with
  | nil => rfl
  | cons x xs ih =>
    cases hx : p x with
    | true => simp [updateFirst, hx, h x (by simp) hx]
    | false =>
      simp [updateFirst, hx]
      exact ih (fun y hy hpy => h y (by simp [hy]) hpy)

theorem updateFirst_idem (p : α → Bool) (f : α → α) (l : List α)
    (hp : ∀ x, p x = true → p (f x) = true) (hf : ∀ x, f (f x) = f x) :
    updateFirst p f (updateFirst p f l) = updateFirst p f l := by
  induction l with
  | nil => rfl
  | cons x xs ih =>
    cases hx : p x with
    | true => simp [updateFirst, hx, hp x hx, hf x]
    | false => simp [updateFirst, hx, ih]

theorem countP_updateFirst (p q : α → Bool) (f : α → α) (l : List α)
    (h : ∀ x, q (f x) = q x) : (updateFirst p f l).countP q = l.countP q := by
  induction l with
  | nil => rfl
  | cons x xs ih =>
    cases hx : p x with
    | true => simp [updateFirst, hx, List.countP_cons, h x]
    | false => simp [updateFirst, hx, List.countP_cons, ih]

theorem find?_updateFirst_cases (p q : α → Bool) (f : α → α)
    (hpf : ∀ x, p (f x) = p x) (l : List α) (a : α) (ha : l.find? p = some a) :
    (updateFirst q f l).find? p = some a ∨ (updateFirst q f l).find? p = some (f a) := by
  induction l with
  | nil => simp at ha
  | cons x xs ih =>
    cases hx : q x with
    | true =>
      cases hpx : p x with
      | true =>
        have hax : a = x := by simp [List.find?_cons, hpx] at ha; exact ha.symm
        right
        simp [updateFirst, hx, List.find?_cons, hpf x, hpx, hax]
      | false =>
        left
        simp [List.find?_cons, hpx] at ha
        simp [updateFirst, hx, List.find?_cons, hpf x, hpx, ha]
    | false =>
      cases hpx : p x with
      | true =>
        have hax : a = x := by simp [List.find?_cons, hpx] at ha; exact ha.symm
        left
        simp [updateFirst, hx, List.find?_cons, hpx, hax]
      | false =>
        simp [List.find?_cons, hpx] at ha
        have := ih ha
        simpa [updateFirst, hx, List.find?_cons, hpx] using this

/-- C7: `ensureUser` (the upsert of `start_command`) is idempotent: repeating
the call changes nothing; when the user exists it only refreshes `username`
and `last_active` (keeping `current_book_id` and `created_at`); when absent
it appends exactly one fresh record with `current_book_id = none`; the
number of records for the id never grows past the first call; books are
untouched. -/
theorem C7_ensureUser_idempotent (db : DB) (uid : Nat) (name : String) (now : Nat) :
    start_command (start_command db uid name now) uid name now =
      start_command db uid name now ∧
    (∀ u, findUser db uid = some u →
      findUser (start_command db uid name now) uid =
        some { u with username := name, last_active := now }) ∧
    (findUser db uid = none →
      (start_command db uid name now).users =
        db.users ++ [{ user_id := uid, username := name, last_active := now,
                       created_at := now, current_book_id := none }]) ∧
    ((start_command db uid name now).users.countP (fun u => u.user_id == uid) =
      if (findUser db uid).isSome then db.users.countP (fun u => u.user_id == uid)
      else db.users.countP (fun u => u.user_id == uid) + 1) ∧
    (start_command db uid name now).books = db.books := by
  have hpres : ∀ u : User, (fun v : User => v.user_id == uid) u = true →
      (fun v : User => v.user_id == uid)
        ({ u with username := name, last_active := now }) = true := by
    intro u hu; simpa using hu
  refine ⟨?_, ?_, ?_, ?_, ?_⟩
  · cases h : findUser db uid with
    | some u =>
      have e1 : start_command db uid name now =
          { db with
              users := updateFirst (fun v => v.user_id == uid)
                (fun v => { v with username := name, last_active := now }) db.users } := by
        simp [start_command, h]
      have e2 : findUser
          { db with
              users := updateFirst (fun v => v.user_id == uid)
                (fun v => { v with username := name, last_active := now }) db.users } uid =
          some { u with username := name, last_active := now } := by
        show (updateFirst _ _ db.users).find? _ = _
        rw [find?_updateFirst_same _ _ hpres db.users]
        have h' : db.users.find? (fun v => v.user_id == uid) = some u := h
        rw [h']
        rfl
      rw [e1]
      simp only [start_command, e2]
      have key := updateFirst_idem (fun v : User => v.user_id == uid)
        (fun v => { v with username := name, last_active := now }) db.users hpres
        (fun x => rfl)
      simp [key]
    | none =>
      have e1 : start_command db uid name now =
          { db with
              users := db.users ++
                [{ user_id := uid, username := name, last_active := now,
                   created_at := now, current_book_id := none }] } := by
        simp [start_command, h]
      have h' : db.users.find? (fun v => v.user_id == uid) = none := h
      have e2 : findUser
          { db with
              users := db.users ++
                [{ user_id := uid, username := name, last_active := now,
                   created_at := now, current_book_id := none }] } uid =
          some { user_id := uid, username := name, last_active := now,
                 created_at := now, current_book_id := none } := by
        show (db.users ++ _).find? _ = _
        rw [List.find?_append, h']
        simp
      rw [e1]
      simp only [start_command, e2]
      have key : updateFirst (fun v : User => v.user_id == uid)
          (fun v => { v with username := name, last_active := now })
          (db.users ++ [{ user_id := uid, username := name, last_active := now,
                          created_at := now, current_book_id := none }]) =
          db.users ++ [{ user_id := uid, username := name, last_active := now,
                         created_at := now, current_book_id := none }] := by
        apply updateFirst_eq_self
        intro x hx hpx
        rcases List.mem_append.mp hx with hmem | hmem
        · exact absurd hpx (by simpa using List.find?_eq_none.mp h' x hmem)
        · simp at hmem
          subst hmem
          rfl
      simp [key]
  · intro u hu
    have e1 : start_command db uid name now =
        { db with
            users := updateFirst (fun v => v.user_id == uid)
              (fun v => { v with username := name, last_active := now }) db.users } := by
      simp [start_command, hu]
    rw [e1]
    show (updateFirst _ _ db.users).find? _ = _
    rw [find?_updateFirst_same _ _ hpres db.users]
    have h' : db.users.find? (fun v => v.user_id == uid) = some u := hu
    rw [h']
    rfl
  · intro h
    simp [start_command, h]
  · cases h : findUser db uid with
    | some u =>
      have e1 : start_command db uid name now =
          { db with
              users := updateFirst (fun v => v.user_id == uid)
                (fun v => { v with username := name, last_active := now }) db.users } := by
        simp [start_command, h]
      rw [e1]
      simp only [h, Option.isSome_some, if_pos]
      exact countP_updateFirst _ _ _ db.users (fun x => rfl)
    | none =>
      have e1 : start_command db uid name now =
          { db with
              users := db.users ++
                [{ user_id := uid, username := name, last_active := now,
                   created_at := now, current_book_id := none }] } := by
        simp [start_command, h]
      rw [e1]
      simp [h, List.countP_append, List.countP_cons]
  · cases h : findUser db uid with
    | some u => simp [start_command, h]
    | none => simp [start_command, h]

/-- Concrete book used by several witnesses: one text note, still being
read. -/
def bookDune : Book :=
  { id := 0, user_id := 1, title := "Dune",
    notes := [{ content := "great opening", kind := "text",
                timestamp := 1, message_id := 10, duration := none }],
    status := "reading", created_at := 0, finished_at := none,
    ai_review := none, review_generated_at := none }

/-- Concrete store used by several witnesses: one registered user (id 1)
whose current book is `bookDune` (id 0). -/
def dbReading : DB :=
  { users := [{ user_id := 1, username := "ann", last_active := 0,
                created_at := 0, current_book_id := some 0 }],
    books := [bookDune],
    nextId := 1 }

/-- Witness for C7 at a concrete store: refreshing user 1 keeps its
`current_book_id` and `created_at` while updating name and activity. -/
theorem C7_ensureUser_idempotent_witness :
    findUser (start_command dbReading 1 "bob" 9) 1 =
      some { user_id := 1, username := "bob", last_active := 9,
             created_at := 0, current_book_id := some 0 } :=
  (C7_ensureUser_idempotent dbReading 1 "bob" 9).2.1
    { user_id := 1, username := "ann", last_active := 0,
      created_at := 0, current_book_id := some 0 } rfl

/-- Inversion for `get_current_book`: a resolved current book comes from an
existing user whose pointer equals the book's own id. -/
theorem get_current_book_eq_some {db : DB} {uid : Nat} {b : Book}
    (h : get_current_book db uid = some b) :
    ∃ u, findUser db uid = some u ∧ u.current_book_id = some b.id ∧
      findBook db b.id = some b := by
  unfold get_current_book at h
  split at h
  · simp at h
  · rename_i u hu
    split at h
    · simp at h
    · rename_i bid hc
      have hbid : b.id = bid := by simpa using List.find?_some h
      refine ⟨u, hu, ?_, ?_⟩
      · rw [hc, hbid]
      · rw [show findBook db b.id = findBook db bid from by rw [hbid]]
        exact h

/-- C8: when the Language Model call fails (raises), `generate_review_command`
writes nothing to the store — `ai_review` / `review_generated_at` are exactly
as before — and the outcome is never a success. -/
theorem C8_failed_generation_writes_nothing (db : DB) (uid : Nat)
    (llm : String → Option String) (now : Nat) (hfail : ∀ s, llm s = none) :
    (generate_review_command db uid llm now).1 = db ∧
    ∀ r, (generate_review_command db uid llm now).2 ≠ ReviewResult.success r := by
  unfold generate_review_command
  cases h : get_current_book db uid with
  | none => exact ⟨rfl, by simp⟩
  | some cb =>
    cases hn : cb.notes.isEmpty with
    | true => simp [hn]
    | false => simp [hn, generate_ai_review, hfail]

/-- Witness for C8: on `dbReading` (current book with one note) a failing
model call leaves the store untouched. -/
theorem C8_failed_generation_writes_nothing_witness :
    (generate_review_command dbReading 1 (fun _ => none) 7).1 = dbReading :=
  (C8_failed_generation_writes_nothing dbReading 1 (fun _ => none) 7
    (fun _ => rfl)).1

/-- The `start_command` upsert touches only the `users` collection. -/
theorem start_command_books (db : DB) (uid : Nat) (name : String) (now : Nat) :
    (start_command db uid name now).books = db.books := by
  unfold start_command
  split <;> rfl

/-- Lookup only depends on the `books` collection. -/
theorem findBook_books_eq {db db' : DB} (h : db'.books = db.books) (bid : Nat) :
    findBook db' bid = findBook db bid := by
  unfold findBook
  rw [h]

/-- An update whose transformer keeps ids and keeps the `"finished"` status
preserves "this id resolves to a finished book". -/
theorem finished_stays_update (l : List Book) (q : Book → Bool) (f : Book → Book)
    (hid : ∀ x, (f x).id = x.id)
    (hst : ∀ x, x.status = "finished" → (f x).status = "finished")
    (bid : Nat) (b : Book) (hb : l.find? (fun x => x.id == bid) = some b)
    (hs : b.status = "finished") :
    ∃ b', (updateFirst q f l).find? (fun x => x.id == bid) = some b' ∧
      b'.status = "finished" := by
  have hpf : ∀ x, (fun x => x.id == bid) (f x) = (fun x => x.id == bid) x := by
    intro x
    simp [hid x]
  rcases find?_updateFirst_cases (fun x => x.id == bid) q f hpf l b hb with h | h
  · exact ⟨b, h, hs⟩
  · exact ⟨f b, h, hst b hs⟩

/-- A book that reached status `"finished"` still resolves as finished after
any single inbound event. -/
theorem finished_stays_step (db : DB) (uid now : Nat) (op : Op) (bid : Nat) (b : Book)
    (hb : findBook db bid = some b) (hs : b.status = "finished") :
    ∃ b', findBook (step db uid now op) bid = some b' ∧ b'.status = "finished" := by
  cases op with
  | start username =>
    refine ⟨b, ?_, hs⟩
    rw [show step db uid now (Op.start username) = start_command db uid username now from rfl,
        findBook_books_eq (start_command_books db uid username now) bid]
    exact hb
  | newBook args =>
    cases ha : args.isEmpty with
    | true =>
      refine ⟨b, ?_, hs⟩
      simp only [step, new_book_command, ha, if_pos]
      exact hb
    | false =>
      refine ⟨b, ?_, hs⟩
      simp only [step, new_book_command, ha]
      show ((db.books ++ [mkBook db.nextId uid (String.intercalate " " args) now]).find?
        (fun x => x.id == bid)) = some b
      rw [List.find?_append, show db.books.find? (fun x => x.id == bid) = some b from hb]
      rfl
  | textNote content mid =>
    cases h : get_current_book db uid with
    | none =>
      refine ⟨b, ?_, hs⟩
      simp only [step, handle_text_note, h]
      exact hb
    | some cb =>
      simp only [step, handle_text_note, h]
      exact finished_stays_update db.books (fun x => x.id == cb.id)
        (fun bk => { bk with notes := bk.notes ++
          [{ content := content, kind := "text", timestamp := now,
             message_id := mid, duration := none }] })
        (fun x => rfl) (fun x hx => hx) bid b hb hs
  | voiceNote t mid dur =>
    cases h : get_current_book db uid with
    | none =>
      refine ⟨b, ?_, hs⟩
      simp only [step, handle_voice_note, h]
      exact hb
    | some cb =>
      cases t with
      | none =>
        refine ⟨b, ?_, hs⟩
        simp only [step, handle_voice_note, h]
        exact hb
      | some tx =>
        simp only [step, handle_voice_note, h]
        exact finished_stays_update db.books (fun x => x.id == cb.id)
          (fun bk => { bk with notes := bk.notes ++
            [{ content := tx, kind := "voice", timestamp := now,
               message_id := mid, duration := some dur }] })
          (fun x => rfl) (fun x hx => hx) bid b hb hs
  | switch bid2 =>
    exact ⟨b, hb, hs⟩
  | review llm =>
    cases h : get_current_book db uid with
    | none =>
      refine ⟨b, ?_, hs⟩
      simp only [step, generate_review_command, h]
      exact hb
    | some cb =>
      cases hn : cb.notes.isEmpty with
      | true =>
        refine ⟨b, ?_, hs⟩
        simp only [step, generate_review_command, h, hn]
        exact hb
      | false =>
        cases hg : generate_ai_review llm cb.title (notes_text cb.notes) with
        | none =>
          refine ⟨b, ?_, hs⟩
          simp only [step, generate_review_command, h, hn, hg, Bool.false_eq_true,
            if_false]
          exact hb
        | some review =>
          simp only [step, generate_review_command, h, hn, hg, Bool.false_eq_true,
            if_false]
          exact finished_stays_update db.books (fun x => x.id == cb.id)
            (fun bk => { bk with ai_review := some review,
                                 review_generated_at := some now })
            (fun x => rfl) (fun x hx => hx) bid b hb hs
  | finish =>
    cases h : get_current_book db uid with
    | none =>
      refine ⟨b, ?_, hs⟩
      simp only [step, finish_book_command, h]
      exact hb
    | some cb =>
      simp only [step, finish_book_command, h]
      exact finished_stays_update db.books (fun x => x.id == cb.id)
        (fun bk => { bk with status := "finished", finished_at := some now })
        (fun x => rfl) (fun x _ => rfl) bid b hb hs

/-- A book that reached status `"finished"` stays finished under any
sequence of inbound events. -/
theorem finished_stays_run (ops : List (Nat × Nat × Op)) :
    ∀ (db : DB) (bid : Nat) (b : Book), findBook db bid = some b →
    b.status = "finished" →
    ∃ b', findBook (run db ops) bid = some b' ∧ b'.status = "finished" := by
  induction ops with
  | nil =>
    intro db bid b hb hs
    exact ⟨b, hb, hs⟩
  | cons e rest ih =>
    intro db bid b hb hs
    obtain ⟨b', hb', hs'⟩ := finished_stays_step db e.1 e.2.1 e.2.2 bid b hb hs
    obtain ⟨b'', hb'', hs''⟩ := ih (step db e.1 e.2.1 e.2.2) bid b' hb' hs'
    exact ⟨b'', by simpa [run] using hb'', hs''⟩

/-- C2: `finish_book_command` fails (writes nothing) without a current
book; with one it marks that book `"finished"` with `finished_at = now` and
clears the pointer, so a second finish immediately after fails; and a
`"finished"` status never reverts under any sequence of operations. -/
theorem C2_finish_one_way (db : DB) (uid : Nat) (now now2 : Nat) :
    (get_current_book db uid = none → finish_book_command db uid now = (db, false)) ∧
    (∀ b, get_current_book db uid = some b →
      findBook (finish_book_command db uid now).1 b.id =
        some { b with status := "finished", finished_at := some now } ∧
      get_current_book (finish_book_command db uid now).1 uid = none ∧
      finish_book_command (finish_book_command db uid now).1 uid now2 =
        ((finish_book_command db uid now).1, false)) ∧
    (∀ (ops : List (Nat × Nat × Op)) (bid : Nat) (b : Book),
      findBook db bid = some b → b.status = "finished" →
      ∃ b', findBook (run db ops) bid = some b' ∧ b'.status = "finished") := by
  refine ⟨?_, ?_, ?_⟩
  · intro h
    simp [finish_book_command, h]
  · intro b h
    obtain ⟨u, hu, hcur, hfb⟩ := get_current_book_eq_some h
    have hbooks : (finish_book_command db uid now).1.books =
        updateFirst (fun bk => bk.id == b.id)
          (fun bk => { bk with status := "finished", finished_at := some now })
          db.books := by
      simp [finish_book_command, h]
    have husers : (finish_book_command db uid now).1.users =
        updateFirst (fun v => v.user_id == uid)
          (fun v => { v with current_book_id := none }) db.users := by
      simp [finish_book_command, h]
    have hfu : findUser (finish_book_command db uid now).1 uid =
        some { u with current_book_id := none } := by
      show (finish_book_command db uid now).1.users.find? _ = _
      rw [husers, find?_updateFirst_same]
      · rw [show db.users.find? (fun v => v.user_id == uid) = some u from hu]
        rfl
      · intro x hx
        simpa using hx
    have hnone : get_current_book (finish_book_command db uid now).1 uid = none := by
      simp [get_current_book, hfu]
    refine ⟨?_, hnone, ?_⟩
    · show (finish_book_command db uid now).1.books.find? (fun x => x.id == b.id) = _
      rw [hbooks, find?_updateFirst_same]
      · rw [show db.books.find? (fun x => x.id == b.id) = some b from hfb]
        rfl
      · intro x hx
        simpa using hx
    · generalize hX : (finish_book_command db uid now).1 = X at hnone ⊢
      simp [finish_book_command, hnone]
  · exact fun ops bid b hb hs => finished_stays_run ops db bid b hb hs

/-- Witness for C2 on `dbReading`: finishing marks book 0 finished at
time 4 and leaves no current book. -/
theorem C2_finish_one_way_witness :
    findBook (finish_book_command dbReading 1 4).1 0 =
      some { bookDune with status := "finished", finished_at := some 4 } ∧
    get_current_book (finish_book_command dbReading 1 4).1 1 = none := by
  have h := (C2_finish_one_way dbReading 1 4 5).2.1 bookDune rfl
  exact ⟨h.1, h.2.1⟩

/-- Concrete already-finished book with no notes. -/
def bookDoneX : Book :=
  { id := 0, user_id := 1, title := "Done", notes := [], status := "finished",
    created_at := 0, finished_at := some 2, ai_review := none,
    review_generated_at := none }

/-- Concrete store whose user 1 has a current book that is already
`"finished"` (reachable via a stale switch callback after finishing). -/
def dbFinishedCurrent : DB :=
  { users := [{ user_id := 1, username := "ann", last_active := 0,
                created_at := 0, current_book_id := some 0 }],
    books := [bookDoneX],
    nextId := 1 }

/-- C3 counterexample: with the current book already Finished, the text-note
handler does NOT fail — it reports success and appends the note to the
finished book, contradicting the claimed `NoCurrentBook`-equivalent
rejection. -/
theorem C3_counterexample :
    get_current_book dbFinishedCurrent 1 = some bookDoneX ∧
    bookDoneX.status = "finished" ∧
    (handle_text_note dbFinishedCurrent 1 "late note" 5 6).2 = true ∧
    (findBook (handle_text_note dbFinishedCurrent 1 "late note" 5 6).1 0).map
      (fun b => b.notes.length) = some 1 :=
  ⟨rfl, rfl, rfl, rfl⟩

/-- C3 amended: the note handlers never re-check the resolved current
book's status — even when it is `"finished"` they report success and append
the note (text and voice alike); the only failure is an unresolved current
book. -/
theorem C3_append_ignores_finished_status (db : DB) (uid : Nat)
    (content tx : String) (mid now tmid tdur tnow : Nat) (b : Book)
    (h : get_current_book db uid = some b) (hs : b.status = "finished") :
    (handle_text_note db uid content mid now).2 = true ∧
    findBook (handle_text_note db uid content mid now).1 b.id =
      some { b with notes := b.notes ++
        [{ content := content, kind := "text", timestamp := now,
           message_id := mid, duration := none }] } ∧
    (handle_voice_note db uid (some tx) tmid tdur tnow).2 = true ∧
    findBook (handle_voice_note db uid (some tx) tmid tdur tnow).1 b.id =
      some { b with notes := b.notes ++
        [{ content := tx, kind := "voice", timestamp := tnow,
           message_id := tmid, duration := some tdur }] } := by
  obtain ⟨u, hu, hcur, hfb⟩ := get_current_book_eq_some h
  refine ⟨by simp [handle_text_note, h], ?_, by simp [handle_voice_note, h], ?_⟩
  · have hbooks : (handle_text_note db uid content mid now).1.books =
        updateFirst (fun bk => bk.id == b.id)
          (fun bk => { bk with notes := bk.notes ++
            [{ content := content, kind := "text", timestamp := now,
               message_id := mid, duration := none }] }) db.books := by
      simp [handle_text_note, h]
    show (handle_text_note db uid content mid now).1.books.find?
      (fun x => x.id == b.id) = _
    rw [hbooks, find?_updateFirst_same]
    · rw [show db.books.find? (fun x => x.id == b.id) = some b from hfb]
      rfl
    · intro x hx
      simpa using hx
  · have hbooks : (handle_voice_note db uid (some tx) tmid tdur tnow).1.books =
        updateFirst (fun bk => bk.id == b.id)
          (fun bk => { bk with notes := bk.notes ++
            [{ content := tx, kind := "voice", timestamp := tnow,
               message_id := tmid, duration := some tdur }] }) db.books := by
      simp [handle_voice_note, h]
    show (handle_voice_note db uid (some tx) tmid tdur tnow).1.books.find?
      (fun x => x.id == b.id) = _
    rw [hbooks, find?_updateFirst_same]
    · rw [show db.books.find? (fun x => x.id == b.id) = some b from hfb]
      rfl
    · intro x hx
      simpa using hx

/-- Witness for the amended C3 at the concrete finished-current store. -/
theorem C3_append_ignores_finished_status_witness :
    (handle_text_note dbFinishedCurrent 1 "late note" 5 6).2 = true ∧
    findBook (handle_text_note dbFinishedCurrent 1 "late note" 5 6).1 0 =
      some { bookDoneX with notes :=
        [{ content := "late note", kind := "text", timestamp := 6,
           message_id := 5, duration := none }] } := by
  have h := C3_append_ignores_finished_status dbFinishedCurrent 1 "late note"
    "t" 5 6 7 8 9 bookDoneX rfl rfl
  exact ⟨h.1, h.2.1⟩

/-- C4 counterexample: switching to a nonexistent book id 99 does not fail
leaving the pointer unchanged — the handler changes `current_book_id` to 99
first, and only then fails to find the book. -/
theorem C4_counterexample :
    findBook dbReading 99 = none ∧
    (findUser dbReading 1).map User.current_book_id = some (some 0) ∧
    (findUser (handle_callback_query dbReading 1 99).1 1).map
      User.current_book_id = some (some 99) ∧
    (handle_callback_query dbReading 1 99).2 = none :=
  ⟨rfl, rfl, rfl, rfl⟩

/-- C4 amended: the switch callback performs no existence or ownership
check: it unconditionally sets the user's `current_book_id` to the
requested id, leaves the books untouched, and then returns whatever the
id-only lookup finds (raising an unhandled rendering error when that is
`none`). -/
theorem C4_switch_unconditional (db : DB) (uid bid : Nat) (u : User)
    (hu : findUser db uid = some u) :
    findUser (handle_callback_query db uid bid).1 uid =
      some { u with current_book_id := some bid } ∧
    (handle_callback_query db uid bid).1.books = db.books ∧
    (handle_callback_query db uid bid).2 = findBook db bid := by
  refine ⟨?_, rfl, rfl⟩
  show (handle_callback_query db uid bid).1.users.find? _ = _
  have husers : (handle_callback_query db uid bid).1.users =
      updateFirst (fun v => v.user_id == uid)
        (fun v => { v with current_book_id := some bid }) db.users := rfl
  rw [husers, find?_updateFirst_same]
  · rw [show db.users.find? (fun v => v.user_id == uid) = some u from hu]
    rfl
  · intro x hx
    simpa using hx

/-- Witness for the amended C4: switching user 1 to its own book 0. -/
theorem C4_switch_unconditional_witness :
    findUser (handle_callback_query dbReading 1 0).1 1 =
      some { user_id := 1, username := "ann", last_active := 0,
             created_at := 0, current_book_id := some 0 } ∧
    (handle_callback_query dbReading 1 0).2 = some bookDune := by
  have h := C4_switch_unconditional dbReading 1 0
    { user_id := 1, username := "ann", last_active := 0,
      created_at := 0, current_book_id := some 0 } rfl
  exact ⟨h.1, h.2.2⟩

/-- C10: a successful note append (text or voice) changes exactly the
current book's `notes` — one note appended at the end — while its other
fields, every other book, the users (including `current_book_id`) and the
id counter are unchanged. -/
theorem C10_append_note_frame (db : DB) (uid : Nat) (content tx : String)
    (mid now tmid tdur tnow : Nat) (b : Book)
    (h : get_current_book db uid = some b) :
    (findBook (handle_text_note db uid content mid now).1 b.id =
       some { b with notes := b.notes ++
         [{ content := content, kind := "text", timestamp := now,
            message_id := mid, duration := none }] } ∧
     (∀ i, i ≠ b.id →
       findBook (handle_text_note db uid content mid now).1 i = findBook db i) ∧
     (handle_text_note db uid content mid now).1.users = db.users ∧
     (handle_text_note db uid content mid now).1.nextId = db.nextId) ∧
    (findBook (handle_voice_note db uid (some tx) tmid tdur tnow).1 b.id =
       some { b with notes := b.notes ++
         [{ content := tx, kind := "voice", timestamp := tnow,
            message_id := tmid, duration := some tdur }] } ∧
     (∀ i, i ≠ b.id →
       findBook (handle_voice_note db uid (some tx) tmid tdur tnow).1 i =
         findBook db i) ∧
     (handle_voice_note db uid (some tx) tmid tdur tnow).1.users = db.users ∧
     (handle_voice_note db uid (some tx) tmid tdur tnow).1.nextId = db.nextId) := by
  obtain ⟨u, hu, hcur, hfb⟩ := get_current_book_eq_some h
  have frame : ∀ (nt : Note),
      (updateFirst (fun bk => bk.id == b.id)
        (fun bk => { bk with notes := bk.notes ++ [nt] }) db.books).find?
          (fun x => x.id == b.id) = some { b with notes := b.notes ++ [nt] } ∧
      ∀ i, i ≠ b.id →
        (updateFirst (fun bk => bk.id == b.id)
          (fun bk => { bk with notes := bk.notes ++ [nt] }) db.books).find?
            (fun x => x.id == i) = db.books.find? (fun x => x.id == i) := by
    intro nt
    constructor
    · rw [find?_updateFirst_same]
      · rw [show db.books.find? (fun x => x.id == b.id) = some b from hfb]
        rfl
      · intro x hx
        simpa using hx
    · intro i hi
      apply find?_updateFirst_other
      · intro x hx
        simp at hx
        simp [hx, hi]
      · intro x hx
        simp at hx
        simp [hx]
        exact Ne.symm hi
  constructor
  · refine ⟨?_, ?_, ?_, ?_⟩
    · have hbooks : (handle_text_note db uid content mid now).1.books =
          updateFirst (fun bk => bk.id == b.id)
            (fun bk => { bk with notes := bk.notes ++
              [{ content := content, kind := "text", timestamp := now,
                 message_id := mid, duration := none }] }) db.books := by
        simp [handle_text_note, h]
      show (handle_text_note db uid content mid now).1.books.find?
        (fun x => x.id == b.id) = _
      rw [hbooks]
      exact (frame _).1
    · intro i hi
      have hbooks : (handle_text_note db uid content mid now).1.books =
          updateFirst (fun bk => bk.id == b.id)
            (fun bk => { bk with notes := bk.notes ++
              [{ content := content, kind := "text", timestamp := now,
                 message_id := mid, duration := none }] }) db.books := by
        simp [handle_text_note, h]
      show (handle_text_note db uid content mid now).1.books.find?
        (fun x => x.id == i) = _
      rw [hbooks]
      exact (frame _).2 i hi
    · simp [handle_text_note, h]
    · simp [handle_text_note, h]
  · refine ⟨?_, ?_, ?_, ?_⟩
    · have hbooks : (handle_voice_note db uid (some tx) tmid tdur tnow).1.books =
          updateFirst (fun bk => bk.id == b.id)
            (fun bk => { bk with notes := bk.notes ++
              [{ content := tx, kind := "voice", timestamp := tnow,
                 message_id := tmid, duration := some tdur }] }) db.books := by
        simp [handle_voice_note, h]
      show (handle_voice_note db uid (some tx) tmid tdur tnow).1.books.find?
        (fun x => x.id == b.id) = _
      rw [hbooks]
      exact (frame _).1
    · intro i hi
      have hbooks : (handle_voice_note db uid (some tx) tmid tdur tnow).1.books =
          updateFirst (fun bk => bk.id == b.id)
            (fun bk => { bk with notes := bk.notes ++
              [{ content := tx, kind := "voice", timestamp := tnow,
                 message_id := tmid, duration := some tdur }] }) db.books := by
        simp [handle_voice_note, h]
      show (handle_voice_note db uid (some tx) tmid tdur tnow).1.books.find?
        (fun x => x.id == i) = _
      rw [hbooks]
      exact (frame _).2 i hi
    · simp [handle_voice_note, h]
    · simp [handle_voice_note, h]

/-- Witness for C10 at `dbReading`: appending a second text note to the
current book changes only its notes. -/
theorem C10_append_note_frame_witness :
    findBook (handle_text_note dbReading 1 "plot twist" 11 2).1 0 =
      some { bookDune with notes := bookDune.notes ++
        [{ content := "plot twist", kind := "text", timestamp := 2,
           message_id := 11, duration := none }] } ∧
    (handle_text_note dbReading 1 "plot twist" 11 2).1.users = dbReading.users := by
  have h := C10_append_note_frame dbReading 1 "plot twist" "t" 11 2 12 13 14
    bookDune rfl
  exact ⟨h.1.1, h.1.2.2.1⟩

/-- The empty store. -/
def dbEmpty : DB := { users := [], books := [], nextId := 0 }

/-- Event sequence reaching a first finish of book 0 at time 3. -/
def opsFinishOnce : List (Nat × Nat × Op) :=
  [(1, 1, Op.start "u"), (1, 2, Op.newBook ["X"]), (1, 3, Op.finish)]

/-- The same sequence continued: a stale switch callback makes the finished
book current again and it is finished a second time at time 5. -/
def opsFinishTwice : List (Nat × Nat × Op) :=
  opsFinishOnce ++ [(1, 4, Op.switch 0), (1, 5, Op.finish)]

/-- C9 counterexample: `finished_at` of book 0 is `some 3` after the first
finish but `some 5` after re-switching to it and finishing again — the
field is overwritten, not written exactly once. -/
theorem C9_counterexample :
    (findBook (run dbEmpty opsFinishOnce) 0).map Book.finished_at =
      some (some 3) ∧
    (findBook (run dbEmpty opsFinishTwice) 0).map Book.finished_at =
      some (some 5) :=
  ⟨rfl, rfl⟩

/-- An update whose transformer keeps ids and some field `g` leaves that
field of the book resolved by any id unchanged. -/
theorem field_stays_update {β : Type} (g : Book → β) (l : List Book)
    (q : Book → Bool) (f : Book → Book)
    (hid : ∀ x, (f x).id = x.id) (hg : ∀ x, g (f x) = g x)
    (bid : Nat) (b : Book) (hb : l.find? (fun x => x.id == bid) = some b) :
    ∃ b', (updateFirst q f l).find? (fun x => x.id == bid) = some b' ∧
      g b' = g b := by
  have hpf : ∀ x, (fun x => x.id == bid) (f x) = (fun x => x.id == bid) x := by
    intro x
    simp [hid x]
  rcases find?_updateFirst_cases (fun x => x.id == bid) q f hpf l b hb with h | h
  · exact ⟨b, h, rfl⟩
  · exact ⟨f b, h, hg b⟩

/-- C9 amended: `finished_at` is (over)written to the call time on every
finish of the then-current book — even one already Finished that was made
current again — and no operation other than finish ever changes a book's
`finished_at`. -/
theorem C9_finished_at_each_finish (db : DB) (uid now : Nat) (b : Book)
    (h : get_current_book db uid = some b) :
    findBook (finish_book_command db uid now).1 b.id =
      some { b with status := "finished", finished_at := some now } ∧
    (∀ (db2 : DB) (uid2 now2 : Nat) (op : Op) (bid : Nat) (bb : Book),
      op ≠ Op.finish → findBook db2 bid = some bb →
      ∃ bb', findBook (step db2 uid2 now2 op) bid = some bb' ∧
        bb'.finished_at = bb.finished_at) := by
  obtain ⟨u, hu, hcur, hfb⟩ := get_current_book_eq_some h
  constructor
  · have hbooks : (finish_book_command db uid now).1.books =
        updateFirst (fun bk => bk.id == b.id)
          (fun bk => { bk with status := "finished", finished_at := some now })
          db.books := by
      simp [finish_book_command, h]
    show (finish_book_command db uid now).1.books.find?
      (fun x => x.id == b.id) = _
    rw [hbooks, find?_updateFirst_same]
    · rw [show db.books.find? (fun x => x.id == b.id) = some b from hfb]
      rfl
    · intro x hx
      simpa using hx
  · intro db2 uid2 now2 op bid bb hop hb
    cases op with
    | start username =>
      refine ⟨bb, ?_, rfl⟩
      rw [show step db2 uid2 now2 (Op.start username) =
            start_command db2 uid2 username now2 from rfl,
          findBook_books_eq (start_command_books db2 uid2 username now2) bid]
      exact hb
    | newBook args =>
      cases ha : args.isEmpty with
      | true =>
        refine ⟨bb, ?_, rfl⟩
        simp only [step, new_book_command, ha, if_pos]
        exact hb
      | false =>
        refine ⟨bb, ?_, rfl⟩
        simp only [step, new_book_command, ha]
        show ((db2.books ++
          [mkBook db2.nextId uid2 (String.intercalate " " args) now2]).find?
            (fun x => x.id == bid)) = some bb
        rw [List.find?_append,
          show db2.books.find? (fun x => x.id == bid) = some bb from hb]
        rfl
    | textNote content mid =>
      cases hc : get_current_book db2 uid2 with
      | none =>
        refine ⟨bb, ?_, rfl⟩
        simp only [step, handle_text_note, hc]
        exact hb
      | some cb =>
        simp only [step, handle_text_note, hc]
        exact field_stays_update Book.finished_at db2.books
          (fun x => x.id == cb.id)
          (fun bk => { bk with notes := bk.notes ++
            [{ content := content, kind := "text", timestamp := now2,
               message_id := mid, duration := none }] })
          (fun x => rfl) (fun x => rfl) bid bb hb
    | voiceNote t mid dur =>
      cases hc : get_current_book db2 uid2 with
      | none =>
        refine ⟨bb, ?_, rfl⟩
        simp only [step, handle_voice_note, hc]
        exact hb
      | some cb =>
        cases t with
        | none =>
          refine ⟨bb, ?_, rfl⟩
          simp only [step, handle_voice_note, hc]
          exact hb
        | some tx =>
          simp only [step, handle_voice_note, hc]
          exact field_stays_update Book.finished_at db2.books
            (fun x => x.id == cb.id)
            (fun bk => { bk with notes := bk.notes ++
              [{ content := tx, kind := "voice", timestamp := now2,
                 message_id := mid, duration := some dur }] })
            (fun x => rfl) (fun x => rfl) bid bb hb
    | switch bid2 =>
      exact ⟨bb, hb, rfl⟩
    | review llm =>
      cases hc : get_current_book db2 uid2 with
      | none =>
        refine ⟨bb, ?_, rfl⟩
        simp only [step, generate_review_command, hc]
        exact hb
      | some cb =>
        cases hn : cb.notes.isEmpty with
        | true =>
          refine ⟨bb, ?_, rfl⟩
          simp only [step, generate_review_command, hc, hn]
          exact hb
        | false =>
          cases hg : generate_ai_review llm cb.title (notes_text cb.notes) with
          | none =>
            refine ⟨bb, ?_, rfl⟩
            simp only [step, generate_review_command, hc, hn, hg,
              Bool.false_eq_true, if_false]
            exact hb
          | some review =>
            simp only [step, generate_review_command, hc, hn, hg,
              Bool.false_eq_true, if_false]
            exact field_stays_update Book.finished_at db2.books
              (fun x => x.id == cb.id)
              (fun bk => { bk with ai_review := some review,
                                   review_generated_at := some now2 })
              (fun x => rfl) (fun x => rfl) bid bb hb
    | finish =>
      exact absurd rfl hop

/-- Witness for the amended C9 at the finished-current store: finishing the
already-finished current book overwrites `finished_at` from `some 2` to
`some 9`. -/
theorem C9_finished_at_each_finish_witness :
    findBook (finish_book_command dbFinishedCurrent 1 9).1 0 =
      some { bookDoneX with status := "finished", finished_at := some 9 } :=
  (C9_finished_at_each_finish dbFinishedCurrent 1 9 bookDoneX rfl).1

/-- The joined notes text only depends on the sequence of note contents
(in stored order), not on timestamps, kinds or ids. -/
theorem notes_text_eq_of_contents (ns ns' : List Note)
    (h : ns.map Note.content = ns'.map Note.content) :
    notes_text ns = notes_text ns' := by
  have aux : ∀ (k : Nat) (l l' : List Note),
      l.map Note.content = l'.map Note.content →
      (l.enumFrom k).map
        (fun p => "Note " ++ toString (p.1 + 1) ++ ": " ++ p.2.content) =
      (l'.enumFrom k).map
        (fun p => "Note " ++ toString (p.1 + 1) ++ ": " ++ p.2.content) := by
    intro k l
    induction l generalizing k with
    | nil =>
      intro l' h
      cases l' with
      | nil => rfl
      | cons b bs => simp at h
    | cons a as ih =>
      intro l' h
      cases l' with
      | nil => simp at h
      | cons b bs =>
        simp only [List.map_cons, List.cons.injEq] at h
        obtain ⟨h1, h2⟩ := h
        simp only [List.enumFrom_cons, List.map_cons, h1]
        rw [ih (k + 1) bs h2]
  unfold notes_text
  rw [show ns.enum = ns.enumFrom 0 from rfl, show ns'.enum = ns'.enumFrom 0 from rfl,
    aux 0 ns ns' h]

/-- Concrete book with no notes yet, current for user 1. -/
def bookNoNotes : Book :=
  { id := 0, user_id := 1, title := "T", notes := [], status := "reading",
    created_at := 0, finished_at := none, ai_review := none,
    review_generated_at := none }

/-- Store whose user 1 has `bookNoNotes` as current book. -/
def dbNoNotes : DB :=
  { users := [{ user_id := 1, username := "ann", last_active := 0,
                created_at := 0, current_book_id := some 0 }],
    books := [bookNoNotes],
    nextId := 1 }

set_option maxRecDepth 100000 in
/-- C5: review generation fails with the no-notes outcome (store untouched)
on a current book with empty notes; the prompt for notes `["A","B"]` and
title `"T"` contains `"Note 1: A"` then `"Note 2: B"` in that order inside
the fixed template; and the prompt is a deterministic function of the title
and the stored contents sequence alone. -/
theorem C5_compose_review_prompt (db : DB) (uid : Nat)
    (llm : String → Option String) (now : Nat) :
    (∀ b, get_current_book db uid = some b → b.notes = [] →
      generate_review_command db uid llm now = (db, ReviewResult.noNotes)) ∧
    (∀ n1 n2 : Note, n1.content = "A" → n2.content = "B" →
      ∃ x y z, ai_prompt "T" (notes_text [n1, n2]) =
        x ++ "Note 1: A" ++ y ++ "Note 2: B" ++ z) ∧
    (∀ (title : String) (ns ns' : List Note),
      ns.map Note.content = ns'.map Note.content →
      ai_prompt title (notes_text ns) = ai_prompt title (notes_text ns')) := by
  refine ⟨?_, ?_, ?_⟩
  · intro b h hn
    simp [generate_review_command, h, hn]
  · intro n1 n2 h1 h2
    have e : notes_text [n1, n2] =
        (("Note 1: " ++ n1.content) ++ "\n\n") ++ ("Note 2: " ++ n2.content) := by
      simp [notes_text, List.enum]
      rfl
    rw [h1, h2] at e
    have e2 : notes_text [n1, n2] = "Note 1: A\n\nNote 2: B" := by
      rw [e]
      rfl
    refine ⟨"\nBased on the following personal reading notes for the book \"T\", write a thoughtful and comprehensive book review. \n\nReading Notes:\n",
      "\n\n",
      "\n\nPlease write a review that covers:\n1. Overall impression and rating\n2. Key themes and main ideas\n3. Strengths and notable aspects\n4. Any criticisms or weaknesses mentioned\n5. Personal takeaways and recommendations\n\nWrite in a personal, engaging tone as if the reader took these notes themselves. Keep it concise but insightful (200-400 words).\n        ",
      ?_⟩
    rw [e2]
    rfl
  · intro title ns ns' h
    rw [notes_text_eq_of_contents ns ns' h]

/-- Witness for C5: the empty-notes failure on a concrete store and the
concrete two-note prompt shape. -/
theorem C5_compose_review_prompt_witness :
    generate_review_command dbNoNotes 1 (fun _ => some "R") 3 =
      (dbNoNotes, ReviewResult.noNotes) ∧
    ∃ x y z, ai_prompt "T"
        (notes_text [{ content := "A", kind := "text", timestamp := 0,
                       message_id := 0, duration := none },
                     { content := "B", kind := "text", timestamp := 0,
                       message_id := 0, duration := none }]) =
      x ++ "Note 1: A" ++ y ++ "Note 2: B" ++ z := by
  have h := C5_compose_review_prompt dbNoNotes 1 (fun _ => some "R") 3
  exact ⟨h.1 bookNoNotes rfl rfl,
    h.2.1 { content := "A", kind := "text", timestamp := 0,
            message_id := 0, duration := none }
          { content := "B", kind := "text", timestamp := 0,
            message_id := 0, duration := none } rfl rfl⟩

/-- Elementwise shape of the inserted books: the k-th call inserts
`mkBook (nid + k)` with the joined title and that call's time. -/
theorem mkBooks_getElem (uid : Nat) :
    ∀ (calls : List (List String × Nat)) (nid k : Nat) (args : List String) (t : Nat),
    calls[k]? = some (args, t) →
    (mkBooks nid uid calls)[k]? =
      some (mkBook (nid + k) uid (String.intercalate " " args) t) := by
  intro calls
  induction calls with
  | nil =>
    intro nid k args t h
    simp at h
  | cons c rest ih =>
    intro nid k args t h
    cases k with
    | zero =>
      simp at h
      obtain ⟨h1, h2⟩ : c.1 = args ∧ c.2 = t := by
        cases c
        simpa using h
      cases c
      simp at h1 h2
      subst h1
      subst h2
      simp [mkBooks]
    | succ j =>
      simp at h
      have := ih (nid + 1) j args t (by simpa using h)
      cases c with
      | mk cargs ct =>
        show (mkBooks nid uid ((cargs, ct) :: rest))[j + 1]? = _
        rw [show mkBooks nid uid ((cargs, ct) :: rest) =
          mkBook nid uid (String.intercalate " " cargs) ct ::
            mkBooks (nid + 1) uid rest from rfl]
        rw [show (nid + 1) + j = nid + (j + 1) from by omega] at this
        simpa using this

/-- Every inserted book is owned by the caller, Reading, with empty notes. -/
theorem mkBooks_mem (uid : Nat) :
    ∀ (calls : List (List String × Nat)) (nid : Nat),
    ∀ b ∈ mkBooks nid uid calls,
    b.user_id = uid ∧ b.status = "reading" ∧ b.notes = [] := by
  intro calls
  induction calls with
  | nil =>
    intro nid b hb
    simp [mkBooks] at hb
  | cons c rest ih =>
    intro nid b hb
    cases c with
    | mk cargs ct =>
      rw [show mkBooks nid uid ((cargs, ct) :: rest) =
        mkBook nid uid (String.intercalate " " cargs) ct ::
          mkBooks (nid + 1) uid rest from rfl] at hb
      rcases List.mem_cons.mp hb with h | h
      · subst h
        exact ⟨rfl, rfl, rfl⟩
      · exact ih (nid + 1) b h

/-- Inside the inserted run, looking up id `nid + k` finds exactly the k-th
inserted book (ids are consecutive from `nid`). -/
theorem mkBooks_find_idx (uid : Nat) :
    ∀ (calls : List (List String × Nat)) (nid k : Nat), k < calls.length →
    (mkBooks nid uid calls).find? (fun x => x.id == nid + k) =
      (mkBooks nid uid calls)[k]? := by
  intro calls
  induction calls with
  | nil =>
    intro nid k hk
    simp at hk
  | cons c rest ih =>
    intro nid k hk
    cases c with
    | mk cargs ct =>
      rw [show mkBooks nid uid ((cargs, ct) :: rest) =
        mkBook nid uid (String.intercalate " " cargs) ct ::
          mkBooks (nid + 1) uid rest from rfl]
      cases k with
      | zero =>
        rw [List.find?_cons_of_pos]
        · simp
        · simp [mkBook]
      | succ j =>
        rw [List.find?_cons_of_neg]
        · have hlt : j < rest.length := by simpa using hk
          have := ih (nid + 1) j hlt
          rw [show nid + (j + 1) = (nid + 1) + j from by omega]
          simpa using this
        · simp [mkBook]

/-- State reached by a sequence of successful `new_book_command` calls:
books are appended in order with consecutive ids, the counter advances by
the number of calls, and the user's pointer ends at the last inserted id. -/
theorem run_new_books_spec (uid : Nat) :
    ∀ (calls : List (List String × Nat)) (db : DB) (u : User),
    findUser db uid = some u →
    (∀ c ∈ calls, c.1.isEmpty = false) →
    (run_new_books db uid calls).books = db.books ++ mkBooks db.nextId uid calls ∧
    (run_new_books db uid calls).nextId = db.nextId + calls.length ∧
    ∃ u', findUser (run_new_books db uid calls) uid = some u' ∧
      u'.user_id = u.user_id ∧
      u'.current_book_id = (if calls.isEmpty then u.current_book_id
                            else some (db.nextId + (calls.length - 1))) := by
  intro calls
  induction calls with
  | nil =>
    intro db u hu hne
    refine ⟨by simp [run_new_books, mkBooks], by simp [run_new_books], u, ?_, rfl, ?_⟩
    · simpa [run_new_books] using hu
    · simp
  | cons c rest ih =>
    intro db u hu hne
    cases c with
    | mk args t =>
      have ha : args.isEmpty = false := hne (args, t) (by simp)
      have hrun : run_new_books db uid ((args, t) :: rest) =
          run_new_books (new_book_command db uid args t).1 uid rest := rfl
      have hb2books : (new_book_command db uid args t).1.books =
          db.books ++ [mkBook db.nextId uid (String.intercalate " " args) t] := by
        simp [new_book_command, ha]
      have hb2next : (new_book_command db uid args t).1.nextId = db.nextId + 1 := by
        simp [new_book_command, ha]
      have hb2user : findUser (new_book_command db uid args t).1 uid =
          some { u with current_book_id := some db.nextId } := by
        have husers : (new_book_command db uid args t).1.users =
            updateFirst (fun v => v.user_id == uid)
              (fun v => { v with current_book_id := some db.nextId }) db.users := by
          simp [new_book_command, ha, mkBook]
        show (new_book_command db uid args t).1.users.find? _ = _
        rw [husers, find?_updateFirst_same]
        · rw [show db.users.find? (fun v => v.user_id == uid) = some u from hu]
          rfl
        · intro x hx
          simpa using hx
      obtain ⟨ihbooks, ihnext, u', hu', huid, hcur⟩ :=
        ih (new_book_command db uid args t).1 { u with current_book_id := some db.nextId }
          hb2user (fun cc hcc => hne cc (by simp [hcc]))
      refine ⟨?_, ?_, u', ?_, huid, ?_⟩
      · rw [hrun, ihbooks, hb2books, hb2next]
        rw [show mkBooks db.nextId uid ((args, t) :: rest) =
          mkBook db.nextId uid (String.intercalate " " args) t ::
            mkBooks (db.nextId + 1) uid rest from rfl]
        simp
      · rw [hrun, ihnext, hb2next]
        simp
        omega
      · rw [hrun]
        exact hu'
      · rw [hrun] at *
        rw [hcur, hb2next]
        cases rest with
        | nil => simp
        | cons r rs =>
          simp
          omega

/-- C1: for a registered user, a non-empty sequence of successful
`new_book_command` calls appends one fresh Book per call (owned by the
user, status Reading, empty notes, consecutive ids) leaving all prior books
untouched, and afterwards `get_current_book` returns exactly the last
(N-th) created book. -/
theorem C1_start_book_sequence (db : DB) (uid : Nat) (u : User)
    (calls : List (List String × Nat))
    (hu : findUser db uid = some u)
    (hne : ∀ c ∈ calls, c.1.isEmpty = false)
    (hfresh : ∀ b ∈ db.books, b.id < db.nextId)
    (hcalls : calls ≠ []) :
    (run_new_books db uid calls).books = db.books ++ mkBooks db.nextId uid calls ∧
    (∀ (k : Nat) (args : List String) (t : Nat), calls[k]? = some (args, t) →
      (mkBooks db.nextId uid calls)[k]? =
        some (mkBook (db.nextId + k) uid (String.intercalate " " args) t)) ∧
    (∀ b ∈ mkBooks db.nextId uid calls,
      b.user_id = uid ∧ b.status = "reading" ∧ b.notes = []) ∧
    get_current_book (run_new_books db uid calls) uid =
      (mkBooks db.nextId uid calls)[calls.length - 1]? := by
  obtain ⟨hbooks, hnext, u', hu', huid, hcur⟩ :=
    run_new_books_spec uid calls db u hu hne
  have hlen : 0 < calls.length := List.length_pos.mpr hcalls
  have hcur' : u'.current_book_id = some (db.nextId + (calls.length - 1)) := by
    rw [hcur, if_neg]
    simp [List.isEmpty_iff, hcalls]
  refine ⟨hbooks, fun k args t h => mkBooks_getElem uid calls db.nextId k args t h,
    fun b hb => mkBooks_mem uid calls db.nextId b hb, ?_⟩
  have hfind : findBook (run_new_books db uid calls) (db.nextId + (calls.length - 1)) =
      (mkBooks db.nextId uid calls)[calls.length - 1]? := by
    show (run_new_books db uid calls).books.find? _ = _
    rw [hbooks, List.find?_append]
    have hnone : db.books.find?
        (fun x => x.id == db.nextId + (calls.length - 1)) = none := by
      rw [List.find?_eq_none]
      intro x hx
      have := hfresh x hx
      simp
      omega
    rw [hnone, mkBooks_find_idx uid calls db.nextId (calls.length - 1) (by omega)]
    rfl
  simp [get_current_book, hu', hcur', hfind]

/-- Store with one registered user (id 1) and no books yet. -/
def dbUserOnly : DB :=
  { users := [{ user_id := 1, username := "ann", last_active := 0,
                created_at := 0, current_book_id := none }],
    books := [],
    nextId := 0 }

/-- Witness for C1: two consecutive `new_book_command` calls; the current
book afterwards is the second created book. -/
theorem C1_start_book_sequence_witness :
    get_current_book
        (run_new_books dbUserOnly 1 [(["Dune"], 1), (["Emma", "Again"], 2)]) 1 =
      some (mkBook 1 1 "Emma Again" 2) := by
  have h := C1_start_book_sequence dbUserOnly 1
    { user_id := 1, username := "ann", last_active := 0,
      created_at := 0, current_book_id := none }
    [(["Dune"], 1), (["Emma", "Again"], 2)]
    rfl (by decide) (by simp [dbUserOnly]) (by decide)
  rw [h.2.2.2]
  rfl

/-- Python `max` semantics of `mostNoted`: the result is in the list, has
maximal notes count, and is the first element attaining that count (every
element strictly before it has strictly fewer notes). -/
theorem mostNoted_spec :
    ∀ (rest : List Book) (x : Book),
    mostNoted x rest ∈ x :: rest ∧
    (∀ b ∈ x :: rest, b.notes.length ≤ (mostNoted x rest).notes.length) ∧
    ∃ pre post, x :: rest = pre ++ (mostNoted x rest) :: post ∧
      ∀ b ∈ pre, b.notes.length < (mostNoted x rest).notes.length := by
  intro rest
  induction rest with
  | nil =>
    intro x
    refine ⟨by simp [mostNoted], ?_, [], [], by simp [mostNoted], by simp⟩
    intro b hb
    simp at hb
    subst hb
    simp [mostNoted]
  | cons y ys ih =>
    intro x
    by_cases hxy : x.notes.length < y.notes.length
    · have hm : mostNoted x (y :: ys) = mostNoted y ys := by
        simp [mostNoted, hxy]
      obtain ⟨hmem, hmax, pre', post', hsplit, hpre⟩ := ih y
      rw [hm]
      refine ⟨?_, ?_, x :: pre', post', ?_, ?_⟩
      · exact List.mem_cons.mpr (Or.inr hmem)
      · intro b hb
        rcases List.mem_cons.mp hb with hb | hb
        · subst hb
          exact le_of_lt (lt_of_lt_of_le hxy (hmax y (by simp)))
        · exact hmax b hb
      · rw [show (x :: pre') ++ mostNoted y ys :: post' =
          x :: (pre' ++ mostNoted y ys :: post') from rfl, ← hsplit]
      · intro b hb
        rcases List.mem_cons.mp hb with hb | hb
        · subst hb
          exact lt_of_lt_of_le hxy (hmax y (by simp))
        · exact hpre b hb
    · have hm : mostNoted x (y :: ys) = mostNoted x ys := by
        simp [mostNoted, hxy]
      obtain ⟨hmem, hmax, pre', post', hsplit, hpre⟩ := ih x
      rw [hm]
      have hymax : y.notes.length ≤ (mostNoted x ys).notes.length :=
        le_trans (Nat.le_of_not_lt hxy) (hmax x (by simp))
      refine ⟨?_, ?_, ?_⟩
      · rcases List.mem_cons.mp hmem with hb | hb
        · rw [hb]
          simp
        · exact List.mem_cons.mpr (Or.inr (List.mem_cons.mpr (Or.inr hb)))
      · intro b hb
        rcases List.mem_cons.mp hb with hb | hb
        · rw [hb]
          exact hmax x (by simp)
        · rcases List.mem_cons.mp hb with hb | hb
          · rw [hb]
            exact hymax
          · exact hmax b (by simp [hb])
      · cases pre' with
        | nil =>
          have h0 : x = mostNoted x ys ∧ ys = post' := by
            have h1 := hsplit
            simp only [List.nil_append, List.cons.injEq] at h1
            exact h1
          refine ⟨[], y :: ys, ?_, by simp⟩
          simp [← h0.1]
        | cons p0 pre'' =>
          have hx : x = p0 ∧ ys = pre'' ++ mostNoted x ys :: post' := by
            have := hsplit
            simp only [List.cons_append, List.cons.injEq] at this
            exact this
          refine ⟨x :: y :: pre'', post', ?_, ?_⟩
          · rw [show (x :: y :: pre'') ++ mostNoted x ys :: post' =
              x :: y :: (pre'' ++ mostNoted x ys :: post') from rfl, ← hx.2]
          · intro b hb
            have hxlt : x.notes.length < (mostNoted x ys).notes.length := by
              have h2 := hpre p0 (by simp)
              rw [← hx.1] at h2
              exact h2
            rcases List.mem_cons.mp hb with hb | hb
            · subst hb
              exact hxlt
            · rcases List.mem_cons.mp hb with hb | hb
              · subst hb
                exact lt_of_le_of_lt (Nat.le_of_not_lt hxy) hxlt
              · exact hpre b (by simp [hb])

/-- C6: with zero books `stats_command` yields the empty outcome; otherwise
the totals aggregate over all of the user's books, and `most_noted_book`
has the maximum notes count with ties broken by earliest `created_at` —
under the scan-order invariant that the stored order of the user's books is
strictly increasing in `created_at` (books are only ever appended with a
fresh, later timestamp). -/
theorem C6_compute_stats (db : DB) (uid : Nat)
    (hsorted : (db.books.filter (fun b => b.user_id == uid)).Pairwise
      (fun a b => a.created_at < b.created_at)) :
    (db.books.filter (fun b => b.user_id == uid) = [] →
      stats_command db uid = none) ∧
    (∀ s, stats_command db uid = some s →
      s.total_books = (db.books.filter (fun b => b.user_id == uid)).length ∧
      s.finished_books = ((db.books.filter (fun b => b.user_id == uid)).filter
        (fun b => b.status == "finished")).length ∧
      s.reading_books = s.total_books - s.finished_books ∧
      s.total_notes = ((db.books.filter (fun b => b.user_id == uid)).map
        (fun b => b.notes.length)).sum ∧
      s.most_noted_book ∈ db.books.filter (fun b => b.user_id == uid) ∧
      (∀ b ∈ db.books.filter (fun b => b.user_id == uid),
        b.notes.length ≤ s.most_noted_book.notes.length) ∧
      (∀ b ∈ db.books.filter (fun b => b.user_id == uid),
        b.notes.length = s.most_noted_book.notes.length →
        s.most_noted_book.created_at ≤ b.created_at)) := by
  cases hfb : db.books.filter (fun b => b.user_id == uid) with
  | nil =>
    refine ⟨fun _ => by simp [stats_command, hfb], ?_⟩
    intro s hs
    simp [stats_command, hfb] at hs
  | cons x rest =>
    refine ⟨?_, ?_⟩
    · intro h
      exact absurd h (List.cons_ne_nil x rest)
    intro s hs
    simp only [stats_command, hfb] at hs
    obtain rfl := Option.some.inj hs
    obtain ⟨hmem, hmax, pre, post, hsplit, hpre⟩ := mostNoted_spec rest x
    refine ⟨rfl, rfl, rfl, rfl, hmem, hmax, ?_⟩
    intro b hb hlen
    rw [hfb, hsplit] at hsorted
    rw [hsplit] at hb
    rw [List.pairwise_append] at hsorted
    rcases List.mem_append.mp hb with hb | hb
    · exact absurd hlen (by simpa using (hpre b hb).ne)
    · rcases List.mem_cons.mp hb with hb | hb
      · rw [hb]
      · exact le_of_lt ((List.pairwise_cons.mp hsorted.2.1).1 b hb)

/-- First book for the C6 witness: two notes, created at time 0. -/
def bookTieA : Book :=
  { id := 0, user_id := 1, title := "A",
    notes := [{ content := "a1", kind := "text", timestamp := 1,
                message_id := 1, duration := none },
              { content := "a2", kind := "text", timestamp := 2,
                message_id := 2, duration := none }],
    status := "finished", created_at := 0, finished_at := some 3,
    ai_review := none, review_generated_at := none }

/-- Second book for the C6 witness: also two notes, created at time 1. -/
def bookTieB : Book :=
  { id := 1, user_id := 1, title := "B",
    notes := [{ content := "b1", kind := "text", timestamp := 4,
                message_id := 3, duration := none },
              { content := "b2", kind := "text", timestamp := 5,
                message_id := 4, duration := none }],
    status := "reading", created_at := 1, finished_at := none,
    ai_review := none, review_generated_at := none }

/-- Two-book store for the C6 witness: both books have two notes, so the
tie is broken by the earlier `created_at` (book id 0). -/
def dbTwoBooks : DB :=
  { users := [{ user_id := 1, username := "ann", last_active := 0,
                created_at := 0, current_book_id := some 1 }],
    books := [bookTieA, bookTieB],
    nextId := 2 }

/-- The stats record `stats_command` computes on `dbTwoBooks`. -/
def statsTwoBooks : Stats :=
  { total_books := 2, finished_books := 1, reading_books := 1,
    total_notes := 4, most_noted_book := bookTieA }

/-- Witness for C6 on `dbTwoBooks`: the totals are as aggregated and the
most-noted book of the two-way tie is the one created earlier, whose
`created_at` is bounded by the tied book id 1. -/
theorem C6_compute_stats_witness :
    stats_command dbTwoBooks 1 = some statsTwoBooks ∧
    statsTwoBooks.total_books = 2 ∧
    statsTwoBooks.total_notes = 4 ∧
    statsTwoBooks.most_noted_book ∈
      dbTwoBooks.books.filter (fun b => b.user_id == 1) ∧
    statsTwoBooks.most_noted_book.created_at ≤ bookTieB.created_at := by
  have h := (C6_compute_stats dbTwoBooks 1 (by decide)).2 statsTwoBooks rfl
  exact ⟨rfl, h.1, h.2.2.2.1, h.2.2.2.2.1,
    h.2.2.2.2.2.2 bookTieB (by decide) rfl⟩

end BookBot
